import Mathlib

/-!
# Verification of the vacina persistence and authentication core

Shallow embedding of `src/vacinacao/core/database.py` (classes `Database`
and `OptimizedDatabase`) and `src/vacinacao/core/auth_service.py` (class
`Auth`), with theorems settling the specification claims about the
write-retry wrapper, the TTL read cache and its invalidation heuristic,
and the login throttle/lockout logic.

Modelling conventions:
* wall-clock instants and durations are naturals, in whole seconds;
* Python's `timedelta.seconds` field (NOT `total_seconds()`) is modelled
  by `pySeconds`: for a non-negative delta it is the elapsed whole
  seconds reduced modulo 86400 (one day), because `timedelta` normalises
  into `(days, seconds, microseconds)`;
* Python exceptions are `Exc` records carrying whether the exception is a
  `sqlite3.OperationalError` (`opError`) plus its message; fallible
  units of work are `Except Exc` valued;
* Python's builtin `hash` applied to the `str()` of the parameter
  sequence is an unspecified function into a 64-bit codomain, so it is a
  parameter `h : String → Fin HASH_MOD` of the cache model;
* dictionaries are association lists with first-match lookup.
-/

namespace Vacina

/-! ## Basic string helpers (Python `str.lower`, `in`, `split`, `strip`) -/

/-- Python `str.lower()` (the source only feeds it ASCII SQL text). -/
def strLower (s : String) : String := ⟨s.data.map Char.toLower⟩

/-- `isPrefixList p l`: the char list `p` is a prefix of `l`. -/
def isPrefixList : List Char → List Char → Bool
  | [], _ => true
  | _ :: _, [] => false
  | a :: as, b :: bs => a == b && isPrefixList as bs

/-- `isSubList p l`: the char list `p` occurs contiguously inside `l`. -/
def isSubList (p : List Char) : List Char → Bool
  | [] => p.isEmpty
  | c :: rest => isPrefixList p (c :: rest) || isSubList p rest

/-- Python's substring test `pat in s`. -/
def strContains (s pat : String) : Bool := isSubList pat.data s.data

/-- Python `s.strip(c)` for a single strip character: remove all leading
and trailing occurrences of `c`. -/
def stripChar (s : String) (c : Char) : String :=
  ⟨((s.data.dropWhile (· == c)).reverse.dropWhile (· == c)).reverse⟩

/-- Helper for Python `str.split()`: scan the characters, accumulating
the current word reversed; whitespace ends a word, and empty pieces are
never produced. -/
def wordsAux : List Char → List Char → List String
  | [], acc => if acc.isEmpty then [] else [⟨acc.reverse⟩]
  | c :: rest, acc =>
    if c.isWhitespace then
      if acc.isEmpty then wordsAux rest [] else ⟨acc.reverse⟩ :: wordsAux rest []
    else wordsAux rest (c :: acc)

/-- Python `s.lower().split()`: split on whitespace runs, dropping empty
pieces (used by `OptimizedDatabase.execute` to tokenise a statement). -/
def sqlWords (q : String) : List String :=
  wordsAux (strLower q).data []

/-- Python `timedelta.seconds` of `now - t` (for `t ≤ now`, in whole
seconds): the `seconds` field of a normalised `timedelta`, i.e. the
elapsed seconds modulo one day - NOT the total elapsed seconds. -/
def pySeconds (now t : ℕ) : ℕ := (now - t) % 86400

/-! ## `Database._is_busy_error` and `Database._with_write_retry`
(`database.py` lines 25-52) -/

/-- A Python exception as the retry wrapper observes it: whether it is a
`sqlite3.OperationalError`, and its message `str(exc)`. -/
structure Exc where
  opError : Bool
  msg : String
deriving DecidableEq, Repr

/-- `Database._MAX_WRITE_RETRIES`. -/
def MAX_WRITE_RETRIES : ℕ := 6

/-- `Database._BASE_BACKOFF_SEC` (0.08 seconds). -/
def BASE_BACKOFF : ℚ := 8 / 100

/-- `Database._is_busy_error`: the lowered message contains
"database is locked", or "database is busy", or both "locked" and
"database". -/
def isBusyError (e : Exc) : Bool :=
  let m := strLower e.msg
  strContains m "database is locked" || strContains m "database is busy" ||
    (strContains m "locked" && strContains m "database")

/-- Outcome of the retry wrapper: the value returned, or the exception
that propagated to the caller. -/
inductive RetryOutcome (α : Type) where
  | ok (v : α)
  | raised (e : Exc)
deriving DecidableEq

/-- Observable trace of one `_with_write_retry` run: its outcome, how
many times the unit of work was invoked, and the `time.sleep` durations
performed (in order, in seconds). -/
structure RetryTrace (α : Type) where
  outcome : RetryOutcome α
  attempts : ℕ
  sleeps : List ℚ
deriving DecidableEq

/-- The `for attempt in range(_MAX_WRITE_RETRIES)` loop of
`Database._with_write_retry`.  `fn i` is what the unit of work does when
invoked as attempt number `i` (0-based).  Only a `sqlite3.OperationalError`
is caught; a busy/locked one sleeps `BASE_BACKOFF * 2 ^ attempt` and
continues, any other `OperationalError` re-raises at once, and any other
exception type is not caught at all.  When the loop exhausts its fuel the
last caught exception is re-raised (the `none` fallback is unreachable
for a positive retry ceiling). -/
def retryAux (fn : ℕ → Except Exc α) : ℕ → ℕ → Option Exc → RetryTrace α
  | 0, _, last => ⟨.raised (last.getD ⟨false, "TypeError"⟩), 0, []⟩
  | fuel + 1, attempt, _ =>
    match fn attempt with
    | .ok v => ⟨.ok v, 1, []⟩
    | .error e =>
      if e.opError then
        if isBusyError e then
          let t := retryAux fn fuel (attempt + 1) (some e)
          ⟨t.outcome, t.attempts + 1, BASE_BACKOFF * 2 ^ attempt :: t.sleeps⟩
        else ⟨.raised e, 1, []⟩
      else ⟨.raised e, 1, []⟩

/-- `Database._with_write_retry`. -/
def withWriteRetry (fn : ℕ → Except Exc α) : RetryTrace α :=
  retryAux fn MAX_WRITE_RETRIES 0 none

theorem retryAux_zero (fn : ℕ → Except Exc α) (attempt : ℕ) (last : Option Exc) :
    retryAux fn 0 attempt last = ⟨.raised (last.getD ⟨false, "TypeError"⟩), 0, []⟩ := rfl

theorem retryAux_step (fn : ℕ → Except Exc α) (fuel attempt : ℕ) (last : Option Exc) :
    retryAux fn (fuel + 1) attempt last =
      match fn attempt with
      | .ok v => ⟨.ok v, 1, []⟩
      | .error e =>
        if e.opError then
          if isBusyError e then
            let t := retryAux fn fuel (attempt + 1) (some e)
            ⟨t.outcome, t.attempts + 1, BASE_BACKOFF * 2 ^ attempt :: t.sleeps⟩
          else ⟨.raised e, 1, []⟩
        else ⟨.raised e, 1, []⟩ := rfl

/-- When every attempt raises a retryable (busy) `OperationalError`, the
loop consumes all its fuel, sleeping `BASE_BACKOFF * 2 ^ attempt` after
every attempt, and ends carrying the last failure. -/
theorem retryAux_all_busy (fn : ℕ → Except Exc α) (es : ℕ → Exc)
    (h : ∀ i, fn i = .error (es i) ∧ (es i).opError = true ∧ isBusyError (es i) = true) :
    ∀ fuel attempt last, 0 < fuel →
      retryAux fn fuel attempt last =
        ⟨.raised (es (attempt + fuel - 1)), fuel,
          (List.range fuel).map (fun i => BASE_BACKOFF * 2 ^ (attempt + i))⟩ := by
  intro fuel
  induction fuel with
  | zero => intro attempt last hpos; omega
  | succ f ih =>
    intro attempt last _
    obtain ⟨hf, hop, hbe⟩ := h attempt
    rw [retryAux_step, hf]
    simp only [hop, hbe, if_true]
    cases f with
    | zero =>
      rw [retryAux_zero]
      simp [List.range_succ]
    | succ f2 =>
      rw [ih (attempt + 1) (some (es attempt)) (Nat.succ_pos f2)]
      have harith : attempt + 1 + (f2 + 1) - 1 = attempt + (f2 + 1 + 1) - 1 := by omega
      have hexp : ∀ i : ℕ, attempt + 1 + i = attempt + (i + 1) := by omega
      simp [List.range_succ_eq_map, List.map_map, Function.comp, harith, hexp]

/-- **C2**: for every zero-argument unit of work run through
`Database._with_write_retry`: (a) when every attempt raises a failure the
busy/locked classifier accepts, the wrapper makes exactly
`MAX_WRITE_RETRIES = 6` attempts, sleeping `BASE_BACKOFF * 2 ^ attempt`
seconds (base 0.08 s) between consecutive attempts (and once more after
the final one), then re-raises the last such failure; (b) when an attempt
raises a failure that is not a retryable busy/locked
`OperationalError`, that failure is re-raised immediately and the unit of
work has run exactly once, with no backoff sleep. -/
theorem write_retry_ceiling {α : Type} (fn : ℕ → Except Exc α) (es : ℕ → Exc) (e : Exc) :
    ((∀ i, fn i = .error (es i) ∧ (es i).opError = true ∧ isBusyError (es i) = true) →
        withWriteRetry fn =
          ⟨.raised (es 5), 6, (List.range 6).map (fun i => BASE_BACKOFF * 2 ^ i)⟩)
    ∧ (fn 0 = .error e → (e.opError = true → isBusyError e = false) →
        withWriteRetry fn = ⟨.raised e, 1, []⟩) := by
  constructor
  · intro h
    have h6 := retryAux_all_busy fn es h 6 0 none (by norm_num)
    simpa [withWriteRetry, MAX_WRITE_RETRIES] using h6
  · intro hfn hnb
    have hw : withWriteRetry fn = retryAux fn (5 + 1) 0 none := rfl
    rw [hw, retryAux_step, hfn]
    cases hop : e.opError
    · simp [hop]
    · simp [hop, hnb hop]

/-- **C2 witness**: a unit of work that always raises an
`OperationalError` saying "database is locked" is attempted 6 times and
the failure is then re-raised; one raising a constraint-violation
`OperationalError` is attempted exactly once. -/
theorem write_retry_ceiling_witness :
    withWriteRetry (fun _ => (Except.error ⟨true, "database is locked"⟩ : Except Exc ℕ)) =
      ⟨.raised ⟨true, "database is locked"⟩, 6,
        (List.range 6).map (fun i => BASE_BACKOFF * 2 ^ i)⟩
    ∧ withWriteRetry (fun _ => (Except.error ⟨true, "UNIQUE constraint failed"⟩ : Except Exc ℕ)) =
      ⟨.raised ⟨true, "UNIQUE constraint failed"⟩, 1, []⟩ :=
  ⟨(write_retry_ceiling (fun _ => .error ⟨true, "database is locked"⟩)
        (fun _ => ⟨true, "database is locked"⟩) ⟨true, "database is locked"⟩).1
      (fun _ => ⟨rfl, rfl, by decide⟩),
    (write_retry_ceiling (fun _ => .error ⟨true, "UNIQUE constraint failed"⟩)
        (fun _ => ⟨true, "UNIQUE constraint failed"⟩) ⟨true, "UNIQUE constraint failed"⟩).2
      rfl (fun _ => by decide)⟩

/-- **C10**: the wrapper only retries `sqlite3.OperationalError`: an
exception of any other type propagates after a single attempt with no
backoff sleep, even if its message contains "database is locked"; and if
more than one attempt was made, the first attempt must have raised a
busy/locked `OperationalError`. -/
theorem retry_requires_operational_error {α : Type} (fn : ℕ → Except Exc α) (e : Exc) :
    (fn 0 = .error e → e.opError = false → withWriteRetry fn = ⟨.raised e, 1, []⟩)
    ∧ (1 < (withWriteRetry fn).attempts →
        ∃ e2, fn 0 = .error e2 ∧ e2.opError = true ∧ isBusyError e2 = true) := by
  constructor
  · intro hfn hop
    have hw : withWriteRetry fn = retryAux fn (5 + 1) 0 none := rfl
    rw [hw, retryAux_step, hfn]
    simp [hop]
  · intro h
    have hw : withWriteRetry fn = retryAux fn (5 + 1) 0 none := rfl
    rw [hw, retryAux_step] at h
    cases hfn : fn 0 with
    | ok v => rw [hfn] at h; simp at h
    | error e2 =>
      rw [hfn] at h
      cases hop : e2.opError
      · simp [hop] at h
      · cases hbs : isBusyError e2
        · simp [hop, hbs] at h
        · exact ⟨e2, rfl, hop, hbs⟩

/-- **C10 witness**: a non-`OperationalError` failure whose message is
literally "database is locked" still propagates after exactly one
attempt with no sleep; and a run that made more than one attempt (the
always-busy unit of work) started with a busy `OperationalError`. -/
theorem retry_requires_operational_error_witness :
    withWriteRetry (fun _ => (Except.error ⟨false, "database is locked"⟩ : Except Exc ℕ)) =
      ⟨.raised ⟨false, "database is locked"⟩, 1, []⟩
    ∧ ∃ e2, (fun _ : ℕ => (Except.error ⟨true, "database is locked"⟩ : Except Exc ℕ)) 0
          = .error e2 ∧ e2.opError = true ∧ isBusyError e2 = true :=
  ⟨(retry_requires_operational_error (fun _ => .error ⟨false, "database is locked"⟩)
        ⟨false, "database is locked"⟩).1 rfl rfl,
    (retry_requires_operational_error (fun _ => .error ⟨true, "database is locked"⟩)
        ⟨false, "ignored"⟩).2 (by decide)⟩

/-! ## Cache invalidation heuristic
(`OptimizedDatabase.invalidate_cache_for_table` and
`OptimizedDatabase.execute`, `database.py` lines 500-526) -/

/-- The `for i, palavra in enumerate(palavras)` scan inside
`OptimizedDatabase.execute`: at the FIRST word that is one of
`update`, `insert`, `delete`, `into`, `from` and has a following word,
take the following word, strip `(` then `)` from both of its ends, and
stop; a matching word with no successor does not break the loop. -/
def findTableToken : List String → Option String
  | w :: next :: rest =>
    if w == "update" || w == "insert" || w == "delete" || w == "into" || w == "from" then
      some (stripChar (stripChar next '(') ')')
    else findTableToken (next :: rest)
  | _ => none

/-- `OptimizedDatabase.invalidate_cache_for_table`: drop every cache key
that contains the table name, case-insensitively, keeping the rest. -/
def invalidateForTable (keys : List String) (t : String) : List String :=
  keys.filter (fun k => !strContains (strLower k) (strLower t))

/-- The cache-invalidation step of `OptimizedDatabase.execute` applied
to the list of cache keys: tokenise the lowered statement; if some token
is `update`, `insert` or `delete`, find the first keyword token with a
successor and purge the keys containing that successor token. -/
def executeInvalidate (keys : List String) (query : String) : List String :=
  let ws := sqlWords query
  if ws.any (fun w => w == "update" || w == "insert" || w == "delete") then
    match findTableToken ws with
    | some t => invalidateForTable keys t
    | none => keys
  else keys

/-- **C3** (failing evaluation): the heuristic purges by the token right
after the FIRST of `update`/`insert`/`delete`/`into`/`from`, so for
`UPDATE accounts ...` it purges keys containing `accounts` as the claim
says, but for `INSERT INTO t ...` the token found is `into` (not `t`)
and for `DELETE FROM t ...` it is `from` (not `t`): the cached key
`SELECT * FROM doses` (which contains the table name `doses`) survives
an `INSERT INTO doses ...`, contradicting the claim. -/
theorem executeInvalidate_wrong_token_for_insert_delete :
    findTableToken (sqlWords "UPDATE accounts SET x = ?") = some "accounts"
    ∧ findTableToken (sqlWords "INSERT INTO doses (id_comp) VALUES (?)") = some "into"
    ∧ findTableToken (sqlWords "DELETE FROM doses WHERE id = ?") = some "from"
    ∧ executeInvalidate ["SELECT * FROM accounts", "SELECT * FROM doses"]
        "UPDATE accounts SET x = ?" = ["SELECT * FROM doses"]
    ∧ executeInvalidate ["SELECT * FROM doses"]
        "INSERT INTO doses (id_comp) VALUES (?)" = ["SELECT * FROM doses"] := by
  decide

/-! ## TTL query cache (`OptimizedDatabase.read_sql`, `_clean_old_cache`,
`database.py` lines 445-488) -/

/-- Codomain size of Python's 64-bit `hash`. -/
def HASH_MOD : ℕ := 2 ^ 64

/-- The cache key `f"{query}_{hash(str(params))}"`: the query text, an
underscore, and the decimal rendering of the 64-bit hash of the
parameters' string form.  `h` models the process's (unspecified) string
hash; `paramsStr` is `str(params)`. -/
def mkCacheKey (h : String → Fin HASH_MOD) (query paramsStr : String) : String :=
  query ++ "_" ++ Nat.repr (h paramsStr).val

/-- The `_query_cache` dict plus the hit/miss counters of
`OptimizedDatabase`.  Each entry maps a key to its capture time and the
materialised result (`α` stands for the DataFrame). -/
structure QueryCache (α : Type) where
  entries : List (String × ℕ × α)
  hits : ℕ
  misses : ℕ
deriving DecidableEq

/-- Dict lookup `self._query_cache[cache_key]` (first match). -/
def lookupEntry (l : List (String × ℕ × α)) (k : String) : Option (ℕ × α) :=
  (l.find? (fun e => e.1 == k)).map (fun e => e.2)

/-- Dict assignment `self._query_cache[cache_key] = (now, result)`:
replace in place, or append when absent. -/
def setEntry : List (String × ℕ × α) → String → ℕ × α → List (String × ℕ × α)
  | [], k, v => [(k, v.1, v.2)]
  | e :: rest, k, v => if e.1 == k then (k, v.1, v.2) :: rest else e :: setEntry rest k v

/-- `OptimizedDatabase._clean_old_cache`: remove entries whose
`timedelta.seconds` age exceeds `ttl * 2`. -/
def cleanOldCache (entries : List (String × ℕ × α)) (ttl now : ℕ) : List (String × ℕ × α) :=
  entries.filter (fun e => !decide (ttl * 2 < pySeconds now e.2.1))

/-- `OptimizedDatabase.read_sql` (default `ttl = 60`): on a present key
whose `timedelta.seconds` age is strictly below `ttl`, return the cached
result and bump the hit counter; otherwise run the underlying read
(`dbRead`, i.e. `Database.read_sql`), store the result at `now`, sweep
entries older than `2 * ttl`, bump the miss counter, and return the
fresh result. -/
def readSql (h : String → Fin HASH_MOD) (dbRead : String → String → α)
    (st : QueryCache α) (query paramsStr : String) (ttl now : ℕ) : α × QueryCache α :=
  let key := mkCacheKey h query paramsStr
  let doMiss : α × QueryCache α :=
    let result := dbRead query paramsStr
    ⟨result, ⟨cleanOldCache (setEntry st.entries key (now, result)) ttl now,
      st.hits, st.misses + 1⟩⟩
  match lookupEntry st.entries key with
  | some (t, d) =>
    if pySeconds now t < ttl then ⟨d, ⟨st.entries, st.hits + 1, st.misses⟩⟩ else doMiss
  | none => doMiss

/-- The constant hash used to evaluate the cache model at concrete
inputs. -/
def hash0 : String → Fin HASH_MOD := fun _ => ⟨0, by norm_num [HASH_MOD]⟩

/-- **C1** (failing evaluation): with the store answering `1` and a
cache entry holding `0` captured at time `0` under freshness window
`ttl = 60` s: at age 30 s the cached `0` is returned (fresh, as the
claim says); at age 86399 s a fresh read returns `1` (stale, as the
claim says); but at age 86400 s — exactly one day, far beyond the
60-second window — the cached `0` is returned again, because
`timedelta.seconds` wraps at one day, contradicting the claim for ages
of a day or more. -/
theorem readSql_returns_day_old_entry :
    (readSql hash0 (fun _ _ => (1 : ℕ))
        ⟨[(mkCacheKey hash0 "SELECT 1" "()", 0, 0)], 0, 0⟩ "SELECT 1" "()" 60 30).1 = 0
    ∧ (readSql hash0 (fun _ _ => (1 : ℕ))
        ⟨[(mkCacheKey hash0 "SELECT 1" "()", 0, 0)], 0, 0⟩ "SELECT 1" "()" 60 86399).1 = 1
    ∧ (readSql hash0 (fun _ _ => (1 : ℕ))
        ⟨[(mkCacheKey hash0 "SELECT 1" "()", 0, 0)], 0, 0⟩ "SELECT 1" "()" 60 86400).1 = 0 := by
  decide

/-! ## Injectivity of the decimal rendering used inside the cache key -/

theorem toDigitsCore_acc (b : ℕ) :
    ∀ (f n : ℕ) (l : List Char),
      Nat.toDigitsCore b f n l = Nat.toDigitsCore b f n [] ++ l := by
  intro f
  induction f with
  | zero => intro n l; simp [Nat.toDigitsCore]
  | succ f ih =>
    intro n l
    simp only [Nat.toDigitsCore]
    by_cases h : n / b = 0
    · simp [h]
    · simp only [if_neg h]
      rw [ih (n / b) (Nat.digitChar (n % b) :: l), ih (n / b) [Nat.digitChar (n % b)]]
      simp

theorem toDigitsCore_fuel (b : ℕ) (hb : 2 ≤ b) :
    ∀ n f g : ℕ, n < f → n < g →
      Nat.toDigitsCore b f n [] = Nat.toDigitsCore b g n [] := by
  intro n
  induction n using Nat.strong_induction_on with
  | _ n ih =>
    intro f g hf hg
    cases f with
    | zero => omega
    | succ f2 =>
      cases g with
      | zero => omega
      | succ g2 =>
        simp only [Nat.toDigitsCore]
        by_cases h : n / b = 0
        · simp [h]
        · simp only [if_neg h]
          have hnb : b ≤ n := by
            by_contra hlt
            exact h (Nat.div_eq_of_lt (by omega))
          have hdiv : n / b < n := Nat.div_lt_self (by omega) (by omega)
          rw [toDigitsCore_acc b f2 (n / b) [Nat.digitChar (n % b)],
            toDigitsCore_acc b g2 (n / b) [Nat.digitChar (n % b)]]
          rw [ih (n / b) hdiv f2 g2 (by omega) (by omega)]

theorem toDigits_lt_ten (n : ℕ) (h : n < 10) :
    Nat.toDigits 10 n = [Nat.digitChar n] := by
  show Nat.toDigitsCore 10 (n + 1) n [] = _
  simp only [Nat.toDigitsCore]
  simp [Nat.div_eq_of_lt h, Nat.mod_eq_of_lt h]

theorem toDigits_step (n : ℕ) (h : 10 ≤ n) :
    Nat.toDigits 10 n = Nat.toDigits 10 (n / 10) ++ [Nat.digitChar (n % 10)] := by
  have hne : ¬ n / 10 = 0 := by
    have := Nat.div_pos h (by norm_num)
    omega
  show Nat.toDigitsCore 10 (n + 1) n [] = Nat.toDigits 10 (n / 10) ++ _
  simp only [Nat.toDigitsCore]
  simp only [if_neg hne]
  rw [toDigitsCore_acc 10 n (n / 10) [Nat.digitChar (n % 10)]]
  congr 1
  exact toDigitsCore_fuel 10 (by norm_num) (n / 10) n (n / 10 + 1)
    (Nat.div_lt_self (by omega) (by norm_num)) (Nat.lt_succ_self _)

/-- Decimal parser: left inverse of `Nat.toDigits 10`. -/
def decValue (l : List Char) : ℕ := l.foldl (fun a c => 10 * a + (c.toNat - 48)) 0

theorem digitChar_toNat (d : ℕ) (h : d < 10) : (Nat.digitChar d).toNat - 48 = d := by
  interval_cases d <;> rfl

theorem decValue_toDigits (n : ℕ) : decValue (Nat.toDigits 10 n) = n := by
  induction n using Nat.strong_induction_on with
  | _ n ih =>
    by_cases h : n < 10
    · rw [toDigits_lt_ten n h]
      simp [decValue, digitChar_toNat n h]
    · push_neg at h
      rw [toDigits_step n h]
      have happ : decValue (Nat.toDigits 10 (n / 10) ++ [Nat.digitChar (n % 10)])
          = 10 * decValue (Nat.toDigits 10 (n / 10)) + ((Nat.digitChar (n % 10)).toNat - 48) := by
        simp [decValue, List.foldl_append]
      rw [happ, ih (n / 10) (Nat.div_lt_self (by omega) (by norm_num)),
        digitChar_toNat (n % 10) (Nat.mod_lt _ (by norm_num))]
      omega

theorem natRepr_injective : Function.Injective Nat.repr := by
  intro m n h
  have hl : Nat.toDigits 10 m = Nat.toDigits 10 n := by
    have hd := congrArg String.data h
    simpa [Nat.repr, List.asString] using hd
  have hv := congrArg decValue hl
  rwa [decValue_toDigits, decValue_toDigits] at hv

theorem strData_append (s t : String) : (s ++ t).data = s.data ++ t.data := rfl

/-- Whatever 64-bit string hash the process uses, there are two
different parameter renderings that produce the same cache key for the
same query text (pigeonhole: infinitely many strings, finitely many
64-bit digests). -/
theorem cacheKey_collision_exists :
    ∀ h : String → Fin HASH_MOD, ∃ p1 p2 : String, p1 ≠ p2 ∧
      mkCacheKey h "SELECT * FROM servidores WHERE id_comp = ?" p1 =
        mkCacheKey h "SELECT * FROM servidores WHERE id_comp = ?" p2 := by
  intro h
  obtain ⟨p1, p2, hne, heq⟩ := Finite.exists_ne_map_eq_of_infinite h
  exact ⟨p1, p2, hne, by rw [mkCacheKey, mkCacheKey, heq]⟩

/-- A Python value usable as one SQL parameter (the fragment the
repository passes: strings and integers). -/
inductive PyVal where
  | s (v : String)
  | i (n : ℕ)
deriving DecidableEq

/-- Python `repr` of such a value (for strings without quotes or
escapes, `repr` is the text in single quotes). -/
def pyRepr : PyVal → String
  | .s v => "'" ++ v ++ "'"
  | .i n => Nat.repr n

/-- A parameter sequence as `read_sql(query, params)` accepts it
(`params: Sequence[Any]`): a tuple of values, or — since Python strings
are themselves sequences — a plain string. -/
inductive PyParams where
  | tuple (vs : List PyVal)
  | strSeq (s : String)
deriving DecidableEq

/-- Comma-space joined `repr`s, as inside Python's `str` of a tuple. -/
def commaJoin : List PyVal → String
  | [] => ""
  | [v] => pyRepr v
  | v :: rest => pyRepr v ++ ", " ++ commaJoin rest

/-- Python `str(params)`: a tuple renders as `(r1, r2, ...)` (with a
trailing comma when it has exactly one element); `str` of a string is
the string itself. -/
def pyStrParams : PyParams → String
  | .tuple [v] => "(" ++ pyRepr v ++ ",)"
  | .tuple vs => "(" ++ commaJoin vs ++ ")"
  | .strSeq s => s

/-- **C8 counterexample**: the tuple `('a', 'b')` and the 10-character
string `"('a', 'b')"` are DIFFERENT parameter sequences, yet
`str(params)` renders both as the very same text, so
`f"{query}_{hash(str(params))}"` gives them the SAME cache key — under
any hash; evaluated here at the concrete `hash0` — refuting "distinct
parameter values always yield distinct cache keys". -/
theorem cacheKey_concrete_collision :
    PyParams.tuple [.s "a", .s "b"] ≠ PyParams.strSeq "('a', 'b')"
    ∧ pyStrParams (.tuple [.s "a", .s "b"]) = pyStrParams (.strSeq "('a', 'b')")
    ∧ mkCacheKey hash0 "SELECT x FROM t WHERE a = ? AND b = ?"
        (pyStrParams (.tuple [.s "a", .s "b"]))
      = mkCacheKey hash0 "SELECT x FROM t WHERE a = ? AND b = ?"
        (pyStrParams (.strSeq "('a', 'b')")) := by
  decide

/-- **C8 (amended)**: the cache key is built from the query text and the
64-bit hash of the parameters' string form, so two reads with identical
query text receive distinct cache entries whenever those hashes differ;
only a hash collision can make distinct parameters share an entry. -/
theorem cacheKey_injective_on_distinct_hashes
    (h : String → Fin HASH_MOD) (q p1 p2 : String) (hne : h p1 ≠ h p2) :
    mkCacheKey h q p1 ≠ mkCacheKey h q p2 := by
  intro heq
  apply hne
  have hdata := congrArg String.data heq
  simp only [mkCacheKey, strData_append] at hdata
  have hrepr := List.append_cancel_left hdata
  have hs : Nat.repr (h p1).val = Nat.repr (h p2).val := congrArg String.mk hrepr
  exact Fin.val_injective (natRepr_injective hs)

/-- A concrete stand-in hash (string length modulo `2 ^ 64`) used to
evaluate the key model on explicit inputs. -/
def lenHash : String → Fin HASH_MOD := fun s => ⟨s.length % HASH_MOD, Nat.mod_lt _ (by norm_num [HASH_MOD])⟩

/-- **C8 witness**: under the concrete `lenHash`, the parameter
renderings `(1,)` and `(2, 3)` hash differently, hence get distinct
cache keys for the same query text. -/
theorem cacheKey_injective_on_distinct_hashes_witness :
    lenHash "(1,)" ≠ lenHash "(2, 3)"
    ∧ mkCacheKey lenHash "SELECT * FROM doses WHERE id = ?" "(1,)" ≠
        mkCacheKey lenHash "SELECT * FROM doses WHERE id = ?" "(2, 3)" :=
  ⟨by decide, cacheKey_injective_on_distinct_hashes lenHash
    "SELECT * FROM doses WHERE id = ?" "(1,)" "(2, 3)" (by decide)⟩

/-! ## Login throttle and lockout (`auth_service.py`, class `Auth`) -/

/-- One row of the `login_attempts` table: identifier, source address,
timestamp (`data_hora`, in whole seconds). -/
structure AttemptRec where
  login : String
  ip : String
  time : ℕ
deriving DecidableEq

/-- One row of the `usuarios` table (the columns `Auth.login` reads). -/
structure User where
  login : String
  senha : String
  nome : String
  nivel_acesso : String
  ativo : Bool
deriving DecidableEq

/-- The whole mutable state `Auth.login` touches: the in-memory
`_login_attempts_memory` dict (source address -> (attempt count, first
attempt time)) and the durable `login_attempts` table. -/
structure AuthState where
  memory : List (String × ℕ × ℕ)
  attempts : List AttemptRec
deriving DecidableEq

/-- Dict lookup `self._login_attempts_memory[ip]`. -/
def memLookup (m : List (String × ℕ × ℕ)) (ip : String) : Option (ℕ × ℕ) :=
  (m.find? (fun e => e.1 == ip)).map (fun e => e.2)

/-- Dict deletion `del self._login_attempts_memory[ip]`. -/
def memDel (m : List (String × ℕ × ℕ)) (ip : String) : List (String × ℕ × ℕ) :=
  m.filter (fun e => !(e.1 == ip))

/-- Dict assignment `self._login_attempts_memory[ip] = v`. -/
def memSet : List (String × ℕ × ℕ) → String → ℕ × ℕ → List (String × ℕ × ℕ)
  | [], ip, v => [(ip, v)]
  | e :: rest, ip, v => if e.1 == ip then (ip, v) :: rest else e :: memSet rest ip v

/-- `Auth._check_rate_limit_memory`: unknown address passes; an entry
whose `timedelta.seconds` age exceeds 900 s is deleted and the address
passes; otherwise the address passes iff fewer than 5 attempts are
recorded.  Returns (allowed?, updated dict). -/
def checkRateLimitMemory (m : List (String × ℕ × ℕ)) (ip : String) (now : ℕ) :
    Bool × List (String × ℕ × ℕ) :=
  match memLookup m ip with
  | none => (true, m)
  | some (attempts, first) =>
    if 900 < pySeconds now first then (true, memDel m ip)
    else (decide (attempts < 5), m)

/-- `Auth._register_failed_attempt_memory`: bump the count keeping the
first-attempt time, or create a fresh `(1, now)` entry. -/
def registerFailedMemory (m : List (String × ℕ × ℕ)) (ip : String) (now : ℕ) :
    List (String × ℕ × ℕ) :=
  match memLookup m ip with
  | some (a, f) => memSet m ip (a + 1, f)
  | none => memSet m ip (1, now)

/-- The rows the SQL in `Auth._check_account_locked` returns, before
ordering: `data_hora` of the records for this identifier with
`data_hora > datetime('now', '-15 minutes')`. -/
def inWindowAttempts (db : List AttemptRec) (lg : String) (now : ℕ) : List ℕ :=
  (db.filter (fun r => r.login == lg && decide (now < r.time + 900))).map (fun r => r.time)

/-- The `minutos_restantes` computation of `Auth._check_account_locked`
on the elapsed `timedelta.seconds` value `e`:
`int(max(0, 15 - e / 60))` with Python float (here rational) division. -/
def minutesRemaining (e : ℕ) : ℕ := (max 0 (15 - (e : ℚ) / 60)).floor.toNat

/-- `Auth._check_account_locked`: empty identifier is never locked;
otherwise sort the in-window attempt times ascending (`ORDER BY
data_hora`); fewer than 10 rows means not locked; otherwise locked, with
the remaining minutes computed from the first (oldest) row. -/
def checkAccountLocked (db : List AttemptRec) (lg : String) (now : ℕ) : Bool × ℕ :=
  if lg == "" then (false, 0)
  else
    let tentativas := List.insertionSort (· ≤ ·) (inWindowAttempts db lg now)
    if tentativas.length < 10 then (false, 0)
    else
      match tentativas with
      | [] => (false, 0)
      | primeira :: _ => (true, minutesRemaining (pySeconds now primeira))

/-- The `fetchone` of `Auth.login`: first row of `usuarios` matching
`login = ? AND senha = ? AND ativo = 1`. -/
def fetchUserRow (users : List User) (lg hash : String) : Option User :=
  users.find? (fun u => u.login == lg && u.senha == hash && u.ativo)

/-- `Auth.login`: (1) reject if the in-memory per-address throttle says
so (its check may delete an expired entry); (2) reject if the durable
per-identifier lockout check says so; (3) hash the secret and look up an
active matching account; on a match delete the address's in-memory
counter and all durable records for the identifier and return
(display name, access tier); on no match bump the in-memory counter and
append a durable record, returning `none`.  `sha` models
`Security.sha256_hex`; `users` the `usuarios` table. -/
def authLogin (sha : String → String) (users : List User) (st : AuthState)
    (lg senha ip : String) (now : ℕ) : Option (String × String) × AuthState :=
  let checked := checkRateLimitMemory st.memory ip now
  let st1 : AuthState := ⟨checked.2, st.attempts⟩
  if !checked.1 then (none, st1)
  else if (checkAccountLocked st1.attempts lg now).1 then (none, st1)
  else
    match fetchUserRow users lg (sha senha) with
    | some u =>
      (some (u.nome, u.nivel_acesso),
        ⟨memDel st1.memory ip, st1.attempts.filter (fun r => !(r.login == lg))⟩)
    | none =>
      (none, ⟨registerFailedMemory st1.memory ip now, st1.attempts ++ [⟨lg, ip, now⟩]⟩)

/-- `Auth.verificar_permissoes` (the pure access-tier check; the source's
tier names are Portuguese: OPERADOR = operator, VISUALIZADOR = viewer). -/
def verificar_permissoes (user_level needed_level : String) : Bool :=
  if user_level == "ADMIN" then true
  else if user_level == "OPERADOR" then
    needed_level == "OPERADOR" || needed_level == "VISUALIZADOR"
  else if user_level == "VISUALIZADOR" then needed_level == "VISUALIZADOR"
  else false

/-- **C9**: `Auth.verificar_permissoes` implements the total order
ADMIN > OPERADOR (operator) > VISUALIZADOR (viewer): an ADMIN user is
authorized for every required tier; an OPERADOR user exactly for
required tiers OPERADOR and VISUALIZADOR; a VISUALIZADOR user exactly
for required tier VISUALIZADOR. -/
theorem tier_ordering : ∀ n : String,
    verificar_permissoes "ADMIN" n = true
    ∧ verificar_permissoes "OPERADOR" n = (n == "OPERADOR" || n == "VISUALIZADOR")
    ∧ verificar_permissoes "VISUALIZADOR" n = (n == "VISUALIZADOR") := by
  intro n
  refine ⟨rfl, ?_, ?_⟩ <;> simp [verificar_permissoes]

/-- **C5** (failing evaluation): five failed attempts from one address,
first at time 0, produce the counter `(5, 0)`; with it, a check at 600 s
is blocked (and a count of 4 is not), a check at 901 s clears the
counter and passes — but a check a full day after the first attempt
(86400 s, or 86700 s = one day + 5 min) is blocked AGAIN, because
`timedelta.seconds` wraps at one day, contradicting the claimed
`BLOCKED -> CLEAR after 15 minutes` transition. -/
theorem memory_throttle_wraps_after_one_day :
    List.foldl (fun m t => registerFailedMemory m "1.2.3.4" t) [] [0, 1, 2, 3, 4]
      = [("1.2.3.4", 5, 0)]
    ∧ (checkRateLimitMemory [("1.2.3.4", 4, 0)] "1.2.3.4" 600).1 = true
    ∧ (checkRateLimitMemory [("1.2.3.4", 5, 0)] "1.2.3.4" 600).1 = false
    ∧ checkRateLimitMemory [("1.2.3.4", 5, 0)] "1.2.3.4" 901 = (true, [])
    ∧ (checkRateLimitMemory [("1.2.3.4", 5, 0)] "1.2.3.4" 86400).1 = false
    ∧ (checkRateLimitMemory [("1.2.3.4", 5, 0)] "1.2.3.4" 86700).1 = false := by
  decide

theorem filter_keep_drop (l : List AttemptRec) (lg : String) :
    (l.filter (fun r => !(r.login == lg))).filter (fun r => r.login == lg) = [] := by
  induction l with
  | nil => rfl
  | cons a t ih => cases h : a.login == lg <;> simp [List.filter_cons, h, ih]

theorem memLookup_memDel (m : List (String × ℕ × ℕ)) (ip : String) :
    memLookup (memDel m ip) ip = none := by
  induction m with
  | nil => rfl
  | cons e t ih =>
    cases h : e.1 == ip <;>
      simp_all [memLookup, memDel, List.filter_cons, List.find?_cons, h]

/-- **C7**: every rejection path of `Auth.login` — in-memory rate limit
exceeded, durable account lockout, and wrong/inactive credential —
returns the same absence value `none` (the model is a total function,
so no exception escapes), leaving the caller unable to tell from the
returned value which condition rejected the attempt. -/
theorem rejection_is_absence (sha : String → String) (users : List User) (st : AuthState)
    (lg senha ip : String) (now : ℕ) :
    ((checkRateLimitMemory st.memory ip now).1 = false →
      (authLogin sha users st lg senha ip now).1 = none)
    ∧ ((checkAccountLocked st.attempts lg now).1 = true →
      (authLogin sha users st lg senha ip now).1 = none)
    ∧ (fetchUserRow users lg (sha senha) = none →
      (authLogin sha users st lg senha ip now).1 = none) := by
  refine ⟨?_, ?_, ?_⟩
  · intro h
    simp [authLogin, h]
  · intro h
    cases hr : (checkRateLimitMemory st.memory ip now).1
    · simp [authLogin, hr]
    · simp [authLogin, hr, h]
  · intro h
    cases hr : (checkRateLimitMemory st.memory ip now).1
    · simp [authLogin, hr]
    · cases hl : (checkAccountLocked st.attempts lg now).1
      · simp [authLogin, hr, hl, h]
      · simp [authLogin, hr, hl]

/-- **C7 witness**: three concrete rejections — a blocked address (even
with a correct credential), a locked identifier with ten recent failed
records (even with a correct credential), and a wrong credential — all
evaluate to the same `none`. -/
theorem rejection_is_absence_witness :
    (authLogin (fun s => s) [⟨"u", "p", "U", "ADMIN", true⟩]
        ⟨[("9.9.9.9", 5, 0)], []⟩ "u" "p" "9.9.9.9" 10).1 = none
    ∧ (authLogin (fun s => s) [⟨"ana", "p", "Ana", "ADMIN", true⟩]
        ⟨[], [⟨"ana", "9.9.9.9", 0⟩, ⟨"ana", "9.9.9.9", 1⟩, ⟨"ana", "9.9.9.9", 2⟩,
          ⟨"ana", "9.9.9.9", 3⟩, ⟨"ana", "9.9.9.9", 4⟩, ⟨"ana", "9.9.9.9", 5⟩,
          ⟨"ana", "9.9.9.9", 6⟩, ⟨"ana", "9.9.9.9", 7⟩, ⟨"ana", "9.9.9.9", 8⟩,
          ⟨"ana", "9.9.9.9", 9⟩]⟩ "ana" "p" "9.9.9.9" 500).1 = none
    ∧ (authLogin (fun s => s) [] ⟨[], []⟩ "x" "y" "9.9.9.9" 10).1 = none :=
  ⟨(rejection_is_absence (fun s => s) [⟨"u", "p", "U", "ADMIN", true⟩]
      ⟨[("9.9.9.9", 5, 0)], []⟩ "u" "p" "9.9.9.9" 10).1 (by decide),
    (rejection_is_absence (fun s => s) [⟨"ana", "p", "Ana", "ADMIN", true⟩]
      ⟨[], [⟨"ana", "9.9.9.9", 0⟩, ⟨"ana", "9.9.9.9", 1⟩, ⟨"ana", "9.9.9.9", 2⟩,
        ⟨"ana", "9.9.9.9", 3⟩, ⟨"ana", "9.9.9.9", 4⟩, ⟨"ana", "9.9.9.9", 5⟩,
        ⟨"ana", "9.9.9.9", 6⟩, ⟨"ana", "9.9.9.9", 7⟩, ⟨"ana", "9.9.9.9", 8⟩,
        ⟨"ana", "9.9.9.9", 9⟩]⟩ "ana" "p" "9.9.9.9" 500).2.1 (by decide),
    (rejection_is_absence (fun s => s) [] ⟨[], []⟩ "x" "y" "9.9.9.9" 10).2.2 rfl⟩

/-- **C6**: whenever `Auth.login` succeeds (returns a row), the
resulting state has no durable Failed-Login Record left for that
identifier and no in-memory counter left for that source address,
however many of either existed before. -/
theorem success_clears_state (sha : String → String) (users : List User) (st : AuthState)
    (lg senha ip : String) (now : ℕ)
    (h : ((authLogin sha users st lg senha ip now).1).isSome = true) :
    ((authLogin sha users st lg senha ip now).2).attempts.filter (fun r => r.login == lg) = []
    ∧ memLookup ((authLogin sha users st lg senha ip now).2).memory ip = none := by
  cases hr : (checkRateLimitMemory st.memory ip now).1 with
  | false => simp [authLogin, hr] at h
  | true =>
    cases hl : (checkAccountLocked st.attempts lg now).1 with
    | true => simp [authLogin, hr, hl] at h
    | false =>
      cases hu : fetchUserRow users lg (sha senha) with
      | none => simp [authLogin, hr, hl, hu] at h
      | some u =>
        have heq : authLogin sha users st lg senha ip now =
            (some (u.nome, u.nivel_acesso),
              ⟨memDel (checkRateLimitMemory st.memory ip now).2 ip,
                st.attempts.filter (fun r => !(r.login == lg))⟩) := by
          simp [authLogin, hr, hl, hu]
        rw [heq]
        exact ⟨filter_keep_drop st.attempts lg, memLookup_memDel _ ip⟩

/-- **C6 witness**: a concrete successful login for `maria` from
`10.0.0.1`, starting from a state with three durable records for
`maria` and an in-memory counter for the address, ends with no record
for `maria` and no counter for the address. -/
theorem success_clears_state_witness :
    ((authLogin (fun s => s ++ "#") [⟨"maria", "pw#", "Maria", "ADMIN", true⟩]
        ⟨[("10.0.0.1", 3, 0)], [⟨"maria", "10.0.0.1", 0⟩, ⟨"maria", "10.0.0.1", 1⟩,
          ⟨"maria", "10.0.0.1", 2⟩]⟩ "maria" "pw" "10.0.0.1" 100).2).attempts.filter
        (fun r => r.login == "maria") = []
    ∧ memLookup ((authLogin (fun s => s ++ "#") [⟨"maria", "pw#", "Maria", "ADMIN", true⟩]
        ⟨[("10.0.0.1", 3, 0)], [⟨"maria", "10.0.0.1", 0⟩, ⟨"maria", "10.0.0.1", 1⟩,
          ⟨"maria", "10.0.0.1", 2⟩]⟩ "maria" "pw" "10.0.0.1" 100).2).memory "10.0.0.1"
      = none :=
  success_clears_state (fun s => s ++ "#") [⟨"maria", "pw#", "Maria", "ADMIN", true⟩]
    ⟨[("10.0.0.1", 3, 0)], [⟨"maria", "10.0.0.1", 0⟩, ⟨"maria", "10.0.0.1", 1⟩,
      ⟨"maria", "10.0.0.1", 2⟩]⟩ "maria" "pw" "10.0.0.1" 100 (by decide)

theorem sortedHead_min {l : List ℕ} {x : ℕ} {xs : List ℕ}
    (h : List.insertionSort (· ≤ ·) l = x :: xs) : x ∈ l ∧ ∀ y ∈ l, x ≤ y := by
  have hperm := List.perm_insertionSort (· ≤ ·) l
  have hs := List.sorted_insertionSort (· ≤ ·) l
  rw [h] at hperm hs
  constructor
  · exact hperm.mem_iff.mp (List.mem_cons_self x xs)
  · intro y hy
    rcases List.mem_cons.mp (hperm.mem_iff.mpr hy) with h1 | h2
    · omega
    · exact List.rel_of_sorted_cons hs y h2

theorem minutesRemaining_eq (e : ℕ) (he : e < 900) :
    minutesRemaining e = (900 - e) / 60 := by
  unfold minutesRemaining
  have hcast : (15 : ℚ) - (e : ℚ) / 60 = ((900 - e : ℕ) : ℚ) / 60 := by
    rw [Nat.cast_sub (le_of_lt he)]
    push_cast
    ring
  have hnn : (0 : ℚ) ≤ 15 - (e : ℚ) / 60 := by
    rw [hcast]
    positivity
  have hq : ∀ q : ℚ, q.floor = ⌊q⌋ := fun _ => rfl
  rw [max_eq_right hnn, hcast, hq, Int.floor_toNat]
  have hfl := Nat.floor_div_nat (α := ℚ) ((900 - e : ℕ) : ℚ) 60
  rw [Nat.floor_natCast] at hfl
  simpa using hfl

/-- **C4**: the durable lockout check `Auth._check_account_locked` (for
a non-empty identifier, over records not stamped in the future): with at
most 9 in-window records it reports not-locked; with 10 or more it
reports locked, `Auth.login` rejects before consulting the credential
table, and the reported remaining minutes equal 15 minutes minus the
elapsed time since the oldest in-window record — in floored integer
minutes, `(900 - elapsed seconds) / 60` — which always lies between 0
and 15; records at or beyond the 15-minute window boundary never change
the outcome. -/
theorem durable_lockout_check (db : List AttemptRec) (lg : String) (now m : ℕ)
    (sha : String → String) (users : List User) (mem : List (String × ℕ × ℕ))
    (senha ip : String)
    (hlg : lg ≠ "") (hpast : ∀ r ∈ db, r.time ≤ now) :
    ((inWindowAttempts db lg now).length ≤ 9 →
        checkAccountLocked db lg now = (false, 0))
    ∧ (10 ≤ (inWindowAttempts db lg now).length →
        m ∈ inWindowAttempts db lg now →
        (∀ x ∈ inWindowAttempts db lg now, m ≤ x) →
          checkAccountLocked db lg now = (true, (900 - (now - m)) / 60)
          ∧ (900 - (now - m)) / 60 ≤ 15
          ∧ (authLogin sha users ⟨mem, db⟩ lg senha ip now).1 = none)
    ∧ (∀ r : AttemptRec, r.login = lg → r.time + 900 ≤ now →
        checkAccountLocked (r :: db) lg now = checkAccountLocked db lg now) := by
  have hbeq : (lg == "") = false := beq_eq_false_iff_ne.mpr hlg
  refine ⟨?_, ?_, ?_⟩
  · intro hlen
    have h10 : (inWindowAttempts db lg now).length < 10 := by omega
    simp [checkAccountLocked, hbeq, List.length_insertionSort, h10]
  · intro hlen hm hmin
    have hlen2 : ¬ (List.insertionSort (· ≤ ·) (inWindowAttempts db lg now)).length < 10 := by
      rw [List.length_insertionSort]
      omega
    cases hsort : List.insertionSort (· ≤ ·) (inWindowAttempts db lg now) with
    | nil =>
      rw [hsort] at hlen2
      simp at hlen2
    | cons x xs =>
      obtain ⟨hxmem, hxmin⟩ := sortedHead_min hsort
      have hxm : x = m := le_antisymm (hxmin m hm) (hmin x hxmem)
      subst hxm
      obtain ⟨r, hr, hrt⟩ := List.mem_map.mp hm
      have hrdb := (List.mem_filter.mp hr).1
      have hrp := (List.mem_filter.mp hr).2
      rw [Bool.and_eq_true] at hrp
      have hwin : now < r.time + 900 := of_decide_eq_true hrp.2
      have hmle : x ≤ now := hrt ▸ hpast r hrdb
      have hwin2 : now < x + 900 := hrt ▸ hwin
      have hsec : pySeconds now x = now - x := Nat.mod_eq_of_lt (by omega)
      have hck : checkAccountLocked db lg now = (true, (900 - (now - x)) / 60) := by
        unfold checkAccountLocked
        rw [hbeq]
        simp only [Bool.false_eq_true, if_false, hsort]
        rw [if_neg (hsort ▸ hlen2), hsec, minutesRemaining_eq (now - x) (by omega)]
      refine ⟨hck, by omega, ?_⟩
      cases hrl : (checkRateLimitMemory mem ip now).1
      · simp [authLogin, hrl]
      · simp [authLogin, hrl, hck]
  · intro r hrlg hrout
    have hc : ¬ (now < r.time + 900) := by omega
    have hsame : inWindowAttempts (r :: db) lg now = inWindowAttempts db lg now := by
      simp [inWindowAttempts, List.filter_cons, hc]
    simp [checkAccountLocked, hsame]

/-- Concrete durable-record lists for evaluating the lockout check:
`k` records for `maria`, stamped 200, 201, ... -/
def lockoutDb (k : ℕ) : List AttemptRec :=
  (List.range k).map (fun i => ⟨"maria", "1.2.3.4", 200 + i⟩)

/-- **C4 witness**: at time 1000 s, nine in-window records do not lock
`maria`; ten do — `login` then rejects even though a matching active
credential exists — and the reported value is `(900 - 800) / 60 = 1`
minute, within 0..15; a record stamped 50 s (outside the window) does
not change the outcome. -/
theorem durable_lockout_check_witness :
    checkAccountLocked (lockoutDb 9) "maria" 1000 = (false, 0)
    ∧ (checkAccountLocked (lockoutDb 10) "maria" 1000 = (true, (900 - (1000 - 200)) / 60)
        ∧ (900 - (1000 - 200)) / 60 ≤ 15
        ∧ (authLogin (fun s => s) [⟨"maria", "pw", "Maria", "ADMIN", true⟩]
            ⟨[], lockoutDb 10⟩ "maria" "pw" "1.2.3.4" 1000).1 = none)
    ∧ checkAccountLocked (⟨"maria", "1.2.3.4", 50⟩ :: lockoutDb 10) "maria" 1000
        = checkAccountLocked (lockoutDb 10) "maria" 1000 :=
  ⟨(durable_lockout_check (lockoutDb 9) "maria" 1000 0 (fun s => s) [] [] "" ""
      (by decide) (by decide)).1 (by decide),
    (durable_lockout_check (lockoutDb 10) "maria" 1000 200 (fun s => s)
      [⟨"maria", "pw", "Maria", "ADMIN", true⟩] [] "pw" "1.2.3.4"
      (by decide) (by decide)).2.1 (by decide) (by decide) (by decide),
    (durable_lockout_check (lockoutDb 10) "maria" 1000 200 (fun s => s) [] [] "" ""
      (by decide) (by decide)).2.2 ⟨"maria", "1.2.3.4", 50⟩ rfl (by decide)⟩

end Vacina
